import Mathlib

/-!
Verification of the response-normalization layer (`src/llm_clients/base.py`),
the consensus/aggregation engine (`src/scoring.py`) and the fan-out failure
threshold (`src/oracle.py`) of the onchain-judges dispute-resolution oracle.

Python strings are embedded as `List Char` in the normalizer (where character
level operations such as `split`, `strip`, `upper` matter) and as `String` in
the scoring layer (where only concatenation matters).  Python floats are
embedded as `ℚ`.  Python dicts appearing as JSON objects are association lists
with last-wins lookup.  Code that can raise an uncaught exception is embedded
in `Except PyExc`.
-/

-- Batteries marks the rational arithmetic operations `[irreducible]`, which
-- blocks elaborator-side evaluation in `decide`; restore the default status
-- so that concrete executions of the embedded code reduce.
attribute [local semireducible] Rat.add Rat.mul Rat.inv Rat.sub

/-- Exceptions that can escape the embedded Python code uncaught. -/
inductive PyExc where
  | attributeError
  | indexError
deriving DecidableEq, Repr

/-- Python `str.isspace` style whitespace test (ASCII model), as stripped by
`str.strip()` with no argument. -/
def pyIsWs (c : Char) : Bool :=
  c = ' ' || c = '\t' || c = '\n' || c = '\x0d' || c = '\x0b' || c = '\x0c'

/-- Python `str.lstrip()`. -/
def pyLStrip (s : List Char) : List Char := s.dropWhile pyIsWs

/-- Python `str.rstrip()`. -/
def pyRStrip (s : List Char) : List Char := (s.reverse.dropWhile pyIsWs).reverse

/-- Python `str.strip()`. -/
def pyStrip (s : List Char) : List Char := pyRStrip (pyLStrip s)

/-- Python `str.upper()` (ASCII model). -/
def pyUpper (s : List Char) : List Char := s.map Char.toUpper

/-- Python `str.lower()` (ASCII model). -/
def pyLower (s : List Char) : List Char := s.map Char.toLower

/-- Python `sub in s` substring test. -/
def strContains (s sub : List Char) : Bool :=
  match s with
  | [] => sub.isEmpty
  | _ :: t => sub.isPrefixOf s || strContains t sub

/-- Python `s.split(sep)` with a non-empty separator (auxiliary, carries the
reversed accumulator of the current piece; the input length strictly
decreases at every step, so `s.length` fuel always suffices and the
fuel-exhausted branch is unreachable). -/
def pySplitAux (sep : List Char) : Nat → List Char → List Char → List (List Char)
  | _, [], acc => [acc.reverse]
  | 0, s, acc => [acc.reverse ++ s]
  | fuel + 1, c :: t, acc =>
    if sep.isPrefixOf (c :: t) then
      acc.reverse :: pySplitAux sep fuel (t.drop (sep.length - 1)) []
    else
      pySplitAux sep fuel t (c :: acc)

/-- Python `s.split(sep)` (full split, non-empty separator). -/
def pySplitList (sep s : List Char) : List (List Char) := pySplitAux sep s.length s []

/-- Python `s.split(sep, 1)` (at most one split). -/
def pySplitOnce (sep : List Char) : List Char → List Char → List (List Char)
  | [], acc => [acc.reverse]
  | c :: t, acc =>
    if sep.isPrefixOf (c :: t) then
      [acc.reverse, t.drop (sep.length - 1)]
    else
      pySplitOnce sep t (c :: acc)

/-- Python `"sep".join(parts)`. -/
def pyJoin (sep : List Char) : List (List Char) → List Char
  | [] => []
  | [x] => x
  | x :: y :: t => x ++ sep ++ pyJoin sep (y :: t)

/-! ## JSON values and a model of `json.loads` -/

/-- JSON values as returned by Python's `json.loads`.  Objects keep their
key/value pairs in source order; lookup is last-wins as in a Python dict. -/
inductive Json where
  | null
  | bool (b : Bool)
  | num (q : ℚ)
  | str (s : List Char)
  | arr (xs : List Json)
  | obj (kvs : List (List Char × Json))

/-- Python `dict.get(key)` on a JSON object: last binding wins. -/
def jsonGet (kvs : List (List Char × Json)) (key : List Char) : Option Json :=
  (kvs.reverse.find? (fun kv => decide (kv.1 = key))).map (·.2)

/-- Python truthiness of a JSON-derived value. -/
def pyTruthy : Json → Bool
  | .null => false
  | .bool b => b
  | .num q => q ≠ 0
  | .str s => !s.isEmpty
  | .arr xs => !xs.isEmpty
  | .obj kvs => !kvs.isEmpty

/-- A simple rendering of a rational, used only to model `str()` on JSON
numbers (the claims never depend on its exact digits). -/
def ratRender (q : ℚ) : List Char :=
  (toString q.num).data ++ (if q.den = 1 then [] else '/' :: (toString q.den).data)

/-- Python `str()` on a JSON-derived value.  Faithful on strings, `None` and
booleans (the only cases the verified claims depend on); schematic on numbers
and containers. -/
def pyStr : Json → List Char
  | .null => "None".data
  | .bool true => "True".data
  | .bool false => "False".data
  | .num q => ratRender q
  | .str s => s
  | .arr _ => "[...]".data
  | .obj _ => ('\x7b' :: "...".data) ++ ['\x7d']

/-- Digit test. -/
def isDigitCh (c : Char) : Bool := 48 ≤ c.toNat && c.toNat ≤ 57

/-- Numeric value of a digit list (most significant first). -/
def digitsVal (ds : List Char) : Nat :=
  ds.foldl (fun acc c => 10 * acc + (c.toNat - '0'.toNat)) 0

/-- Model of Python `float(string)`: optional sign, decimal digits with an
optional fractional part and optional exponent.  Returns `none` where Python
raises `ValueError` (non-numeric text).  `inf`/`nan` forms are treated as
unparsable since `ℚ` cannot represent them. -/
def parseFloatChars (s : List Char) : Option ℚ :=
  let t := pyStrip s
  let (sgn, t) : ℚ × List Char :=
    match t with
    | '-' :: r => (-1, r)
    | '+' :: r => (1, r)
    | r => (1, r)
  let intDigits := t.takeWhile isDigitCh
  let t1 := t.drop intDigits.length
  let (fracDigits, t2) : List Char × List Char :=
    match t1 with
    | '.' :: r => (r.takeWhile isDigitCh, r.drop (r.takeWhile isDigitCh).length)
    | r => ([], r)
  if intDigits.isEmpty && fracDigits.isEmpty then none
  else
    let mant : ℚ := (digitsVal intDigits : ℚ) + (digitsVal fracDigits : ℚ) / ((10 : ℚ) ^ fracDigits.length)
    let applyExp : List Char → Option ℚ := fun ex =>
      let (esgn, ed) : Bool × List Char :=
        match ex with
        | '-' :: r => (true, r)
        | '+' :: r => (false, r)
        | r => (false, r)
      let eDigits := ed.takeWhile isDigitCh
      if eDigits.isEmpty || !(ed.drop eDigits.length).isEmpty then none
      else
        let e := digitsVal eDigits
        some (if esgn then sgn * mant / ((10 : ℚ) ^ e) else sgn * mant * ((10 : ℚ) ^ e))
    match t2 with
    | [] => some (sgn * mant)
    | 'e' :: r => applyExp r
    | 'E' :: r => applyExp r
    | _ => none

/-- Model of Python `float(x)` on a JSON-derived value: numbers pass through,
booleans coerce to 0/1, numeric strings are parsed, everything else raises
`TypeError`/`ValueError` (returned as `none`; the callers catch both). -/
def pyFloat : Json → Option ℚ
  | .num q => some q
  | .bool b => some (if b then 1 else 0)
  | .str s => parseFloatChars s
  | _ => none

/-- The whitespace characters `json.loads` skips between tokens. -/
def jsonWsChars : List Char := [' ', '\t', '\n', '\x0d']

/-- Skip JSON whitespace. -/
def jsonSkipWs (s : List Char) : List Char := s.dropWhile (fun c => jsonWsChars.contains c)

/-- Hex digit value, by code point ranges (0-9, a-f, A-F). -/
def hexVal (c : Char) : Option Nat :=
  let n := c.toNat
  if 48 ≤ n && n ≤ 57 then some (n - 48)
  else if 97 ≤ n && n ≤ 102 then some (n - 87)
  else if 65 ≤ n && n ≤ 70 then some (n - 55)
  else none

/-- Decode one escape sequence of a JSON string literal (the characters
after the backslash), yielding the decoded character and the remainder. -/
def jsonEscape (esc : Char) (tail : List Char) : Option (Char × List Char) :=
  match esc with
  | '"' => some ('"', tail)
  | '\\' => some ('\\', tail)
  | '/' => some ('/', tail)
  | 'b' => some ('\x08', tail)
  | 'f' => some ('\x0c', tail)
  | 'n' => some ('\n', tail)
  | 'r' => some ('\x0d', tail)
  | 't' => some ('\t', tail)
  | 'u' =>
    match tail with
    | h1 :: h2 :: h3 :: h4 :: tail2 => do
      let v1 ← hexVal h1
      let v2 ← hexVal h2
      let v3 ← hexVal h3
      let v4 ← hexVal h4
      some (Char.ofNat (((v1 * 16 + v2) * 16 + v3) * 16 + v4), tail2)
    | _ => none
  | _ => none

/-- Parse the body of a JSON string literal (after the opening quote),
returning the decoded characters and the rest after the closing quote. -/
def parseJsonStr : Nat → List Char → Option (List Char × List Char)
  | 0, _ => none
  | fuel + 1, input =>
    match input with
    | [] => none
    | '"' :: tail => some ([], tail)
    | '\\' :: rest =>
      match rest with
      | [] => none
      | esc :: tail => do
        let dec ← jsonEscape esc tail
        let (body, remainder) ← parseJsonStr fuel dec.2
        some (dec.1 :: body, remainder)
    | c :: tail => do
      let (body, remainder) ← parseJsonStr fuel tail
      some (c :: body, remainder)

/-- The three JSON literal keywords, with their lengths. -/
def jsonKeyword (s : List Char) : Option (Json × Nat) :=
  if "null".data.isPrefixOf s then some (.null, 4)
  else if "true".data.isPrefixOf s then some (.bool true, 4)
  else if "false".data.isPrefixOf s then some (.bool false, 5)
  else none

/-- Exponent part of a JSON number (after the `e`/`E`): returns the factor
`10^±digits` and the rest. -/
def parseJsonExp (s : List Char) : Option (ℚ × List Char) :=
  let (neg, t) : Bool × List Char :=
    match s with
    | '-' :: r => (true, r)
    | '+' :: r => (false, r)
    | r => (false, r)
  let ds := t.takeWhile isDigitCh
  if ds.isEmpty then none
  else
    let e := digitsVal ds
    some (if neg then 1 / ((10 : ℚ) ^ e) else ((10 : ℚ) ^ e), t.drop ds.length)

/-- A JSON number (structural, no recursion): optional minus, integer
digits, optional fraction, optional exponent, as a rational. -/
def parseJsonNum (s : List Char) : Option (ℚ × List Char) :=
  let (sgn, t1) : ℚ × List Char :=
    match s with
    | '-' :: r => (-1, r)
    | r => (1, r)
  let intDigits := t1.takeWhile isDigitCh
  if intDigits.isEmpty then none
  else
    let t2 := t1.drop intDigits.length
    let (fracDigits, t3) : List Char × List Char :=
      match t2 with
      | '.' :: r =>
        let fd := r.takeWhile isDigitCh
        (fd, r.drop fd.length)
      | r => ([], r)
    if (t2 ≠ t3 && fracDigits.isEmpty) then none
    else
      let mant : ℚ :=
        (digitsVal intDigits : ℚ) + (digitsVal fracDigits : ℚ) / ((10 : ℚ) ^ fracDigits.length)
      match t3 with
      | 'e' :: r => do
        let er ← parseJsonExp r
        some (sgn * mant * er.1, er.2)
      | 'E' :: r => do
        let er ← parseJsonExp r
        some (sgn * mant * er.1, er.2)
      | r => some (sgn * mant, r)

mutual

/-- Fuel-indexed recursive-descent JSON value parser (model of the grammar
accepted by Python `json.loads`). -/
def parseJsonV : Nat → List Char → Option (Json × List Char)
  | 0, _ => none
  | fuel + 1, input =>
    let s := jsonSkipWs input
    match jsonKeyword s with
    | some vn => some (vn.1, s.drop vn.2)
    | none =>
      match s with
      | [] => none
      | '"' :: tail => do
        let sr ← parseJsonStr (tail.length + 1) tail
        some (.str sr.1, sr.2)
      | '[' :: tail =>
        (match jsonSkipWs tail with
          | ']' :: remainder => some (.arr [], remainder)
          | _ => do
            let xr ← parseJsonItems fuel tail
            some (.arr xr.1, xr.2))
      | '\x7b' :: tail =>
        (match jsonSkipWs tail with
          | '\x7d' :: remainder => some (.obj [], remainder)
          | _ => do
            let kr ← parseJsonPairs fuel tail
            some (.obj kr.1, kr.2))
      | _ => do
        let qr ← parseJsonNum s
        some (.num qr.1, qr.2)

/-- Comma-separated JSON array items (after the opening bracket). -/
def parseJsonItems : Nat → List Char → Option (List Json × List Char)
  | 0, _ => none
  | fuel + 1, input => do
    let vr ← parseJsonV fuel input
    match jsonSkipWs vr.2 with
    | ',' :: after => do
      let xr ← parseJsonItems fuel after
      some (vr.1 :: xr.1, xr.2)
    | ']' :: after => some ([vr.1], after)
    | _ => none

/-- Comma-separated JSON object pairs (after the opening brace). -/
def parseJsonPairs : Nat → List Char → Option (List (List Char × Json) × List Char)
  | 0, _ => none
  | fuel + 1, input =>
    match jsonSkipWs input with
    | '"' :: afterQuote => do
      let keyr ← parseJsonStr (afterQuote.length + 1) afterQuote
      match jsonSkipWs keyr.2 with
      | ':' :: afterColon => do
        let vr ← parseJsonV fuel afterColon
        (match jsonSkipWs vr.2 with
          | ',' :: afterComma => do
            let kr ← parseJsonPairs fuel afterComma
            some ((keyr.1, vr.1) :: kr.1, kr.2)
          | '\x7d' :: afterBrace => some ([(keyr.1, vr.1)], afterBrace)
          | _ => none)
      | _ => none
    | _ => none

end

/-- Model of Python `json.loads` on a whole document: parse one value and
require only whitespace afterwards; `none` models `json.JSONDecodeError`. -/
def jsonLoads (s : List Char) : Option Json :=
  match parseJsonV (2 * s.length + 8) s with
  | some (v, r) => if (jsonSkipWs r).isEmpty then some v else none
  | none => none

/-! ## Decision enums (`src/models.py`) -/

/-- `DecisionType` from `src/models.py`. -/
inductive DecisionType where
  | yes
  | no
  | uncertain
deriving DecidableEq, Repr

/-- The string value of a `DecisionType` member. -/
def DecisionType.value : DecisionType → String
  | .yes => "yes"
  | .no => "no"
  | .uncertain => "uncertain"

/-- Modelled from the spec: `DisputeDecisionType` is imported from
`src/models.py` by `scoring.py` and `base.py` but its definition is absent
from the snapshot of `models.py`; the spec fixes the closed enum
partyA/partyB/uncertain, mirroring `DecisionType`. -/
inductive DisputeDecisionType where
  | A
  | B
  | uncertain
deriving DecidableEq, Repr

/-- Modelled from the spec: the string values of the dispute decision enum
(`partyA`/`partyB`/`uncertain`).  The aggregation logic never inspects these
strings; they only surface inside explanation text. -/
def DisputeDecisionType.value : DisputeDecisionType → String
  | .A => "partyA"
  | .B => "partyB"
  | .uncertain => "uncertain"

/-- `TweetVerdictType` from `src/models.py`. -/
inductive TweetVerdictType where
  | credible
  | questionable
  | misleading
  | opinion
deriving DecidableEq, Repr

/-- The string value of a `TweetVerdictType` member. -/
def TweetVerdictType.value : TweetVerdictType → String
  | .credible => "credible"
  | .questionable => "questionable"
  | .misleading => "misleading"
  | .opinion => "opinion"

/-! ## The response normalizer (`src/llm_clients/base.py`) -/

/-- Python `abs` on a rational. -/
def pyAbs (q : ℚ) : ℚ := if q < 0 then -q else q

/-- `_clamp_conf` from `BaseLLMClient._parse_response` (and the identical
helper in `_parse_tweet_response`): `max(0.0, min(1.0, value))`, with
Python's `min`/`max` spelled out as comparisons. -/
def clampConf (value : ℚ) : ℚ :=
  let m := if value < 1 then value else 1
  if 0 < m then m else 0

/-- `_clean_json_text` from `BaseLLMClient._parse_response` (the helper in
`_parse_tweet_response` is textually identical): strip, locate the first
code fence anywhere in the text, drop an optional `json`/`JSON` language tag,
and take the fenced content up to the closing fence or to end-of-string. -/
def cleanJsonText (text : List Char) : List Char :=
  let stripped := pyStrip text
  if strContains stripped "```".data then
    match pySplitList "```".data stripped with
    | _ :: p1 :: rest =>
      let contentAfterFence :=
        if "json".data.isPrefixOf (pyLStrip p1) || "JSON".data.isPrefixOf (pyLStrip p1) then
          (pyLStrip p1).drop 4
        else p1
      if rest.isEmpty then
        pyStrip contentAfterFence
      else
        pyStrip ((pySplitList "```".data contentAfterFence).headD [])
    | _ => stripped
  else stripped

/-- The tuple returned by `BaseLLMClient._parse_response`:
(decision, confidence, reasoning, winning_party). -/
structure ParsedAnswer where
  decision : List Char
  confidence : ℚ
  reasoning : List Char
  winning_party : Option DisputeDecisionType
deriving DecidableEq, Repr

/-- The confidence extraction shared by both JSON branches of
`_parse_response` (and by `_parse_tweet_response`):
`parsed.get("confidence", 0.5)` followed by `float` conversion with
`(TypeError, ValueError)` caught to `0.5`, then clamping. -/
def confFromParsed (parsed : List (List Char × Json)) : ℚ :=
  let raw_confidence := (jsonGet parsed "confidence".data).getD (.num ((1 : ℚ)/2))
  match pyFloat raw_confidence with
  | some q => clampConf q
  | none => (1 : ℚ)/2

/-- The legacy keyword-scan fallback loop of `_parse_response`: line-oriented
scan for `DECISION:`/`CONFIDENCE:`/`REASONING:`, the last absorbing all
remaining lines and stopping the loop.  The unguarded `line.split(":", 1)[1]`
indexing in the `DECISION`/`REASONING` branches is embedded as a potential
`IndexError` (the `CONFIDENCE` branch catches it). -/
def keywordScan : List Char → ℚ → List Char → List (List Char) →
    Except PyExc (List Char × ℚ × List Char)
  | d, c, r, [] => .ok (d, c, r)
  | d, c, r, line :: rest =>
    let lineUpper := pyUpper line
    if strContains lineUpper "DECISION:".data then
      match pySplitOnce [':'] line [] with
      | [_, after1] =>
        let decisionText := pyLower (pyStrip after1)
        let d1 :=
          if strContains decisionText "yes".data then DecisionType.yes.value.data
          else if strContains decisionText "no".data then DecisionType.no.value.data
          else DecisionType.uncertain.value.data
        keywordScan d1 c r rest
      | _ => .error .indexError
    else if strContains lineUpper "CONFIDENCE:".data then
      let c1 :=
        match pySplitOnce [':'] line [] with
        | [_, after1] =>
          match parseFloatChars (pyStrip after1) with
          | some q => clampConf q
          | none => (1 : ℚ)/2
        | _ => (1 : ℚ)/2
      keywordScan d c1 r rest
    else if strContains lineUpper "REASONING:".data then
      match pySplitOnce [':'] line [] with
      | [_, after1] =>
        let r0 := pyStrip after1
        if rest.isEmpty then .ok (d, c, r0)
        else .ok (d, c, r0 ++ '\n' :: pyJoin ['\n'] rest)
      | _ => .error .indexError
    else keywordScan d c r rest

/-- `BaseLLMClient._parse_response` from `src/llm_clients/base.py`.  The
result is `Except` because the `except (json.JSONDecodeError, TypeError)`
clause does not catch the `AttributeError` raised by `parsed.get` when
`json.loads` returns a non-dict value. -/
def parseResponseE (raw_response : String) : Except PyExc ParsedAnswer :=
  let rawL := raw_response.data
  match jsonLoads (cleanJsonText rawL) with
  | some (.obj parsed) =>
    -- `parsed.get("winning_party")` is None both when the key is absent and
    -- when its value is JSON null.
    let wpRaw : Option Json :=
      match jsonGet parsed "winning_party".data with
      | some .null => none
      | other => other
    match wpRaw with
    | some wpv =>
      let wpStr0 := pyUpper (pyStrip (pyStr wpv))
      let (wp, decision, wpStr) :=
        if wpStr0 = "DRAW".data then
          (DisputeDecisionType.uncertain, DecisionType.uncertain.value.data, wpStr0)
        else if wpStr0 = "A".data then
          (DisputeDecisionType.A, DecisionType.yes.value.data, wpStr0)
        else if wpStr0 = "B".data then
          (DisputeDecisionType.B, DecisionType.yes.value.data, wpStr0)
        else
          (DisputeDecisionType.uncertain, DecisionType.uncertain.value.data, "Invalid".data)
      let contract_validity := (jsonGet parsed "contract_validity".data).getD (.str [])
      let injection_detected := (jsonGet parsed "injection_detected".data).getD (.bool false)
      let reasoningParts : List (List Char) :=
        (if !wpStr.isEmpty && wpStr ≠ "Invalid".data then ["Winning party: ".data ++ wpStr] else [])
        ++ (if pyTruthy contract_validity then
              ["Contract validity: ".data ++ pyStr contract_validity] else [])
        ++ (if pyTruthy injection_detected then ["Injection detected: true".data] else [])
      let reasoning_value := (jsonGet parsed "reasoning".data).getD (.str [])
      let reasoning :=
        if pyTruthy reasoning_value then
          let r0 := pyStrip (pyStr reasoning_value)
          if reasoningParts.isEmpty then r0
          else r0 ++ " | ".data ++ pyJoin " | ".data reasoningParts
        else
          if reasoningParts.isEmpty then [] else pyJoin " | ".data reasoningParts
      .ok ⟨decision, confFromParsed parsed, reasoning, some wp⟩
    | none =>
      let raw_decision := pyLower (pyStrip (pyStr ((jsonGet parsed "decision".data).getD (.str []))))
      let decision :=
        if raw_decision = DecisionType.yes.value.data
            || raw_decision = DecisionType.no.value.data
            || raw_decision = DecisionType.uncertain.value.data then raw_decision
        else DecisionType.uncertain.value.data
      let reasoning :=
        match jsonGet parsed "reasoning".data with
        | none => []
        | some .null => []
        | some v => pyStrip (pyStr v)
      .ok ⟨decision, confFromParsed parsed, reasoning, none⟩
  | some _ => .error .attributeError
  | none =>
    match keywordScan DecisionType.uncertain.value.data ((1 : ℚ)/2) []
        (pySplitList ['\n'] rawL) with
    | .ok (d, c, r) => .ok ⟨d, c, if r.isEmpty then rawL else r, none⟩
    | .error e => .error e

/-- The tuple returned by `BaseLLMClient._parse_tweet_response`:
(verdict, confidence, analysis, identified_claims, red_flags). -/
structure TweetParsed where
  verdict : List Char
  confidence : ℚ
  analysis : List Char
  identified_claims : List (List Char)
  red_flags : List (List Char)
deriving DecidableEq, Repr

/-- `BaseLLMClient._parse_tweet_response` from `src/llm_clients/base.py`.
Shares `_clean_json_text` and the confidence handling with
`_parse_response`; the same uncaught `AttributeError` arises on non-dict
JSON documents. -/
def parseTweetResponseE (raw_response : String) : Except PyExc TweetParsed :=
  let rawL := raw_response.data
  match jsonLoads (cleanJsonText rawL) with
  | some (.obj parsed) =>
    let raw_verdict := pyLower (pyStrip (pyStr ((jsonGet parsed "verdict".data).getD (.str []))))
    let verdict :=
      if raw_verdict = TweetVerdictType.credible.value.data
          || raw_verdict = TweetVerdictType.questionable.value.data
          || raw_verdict = TweetVerdictType.misleading.value.data
          || raw_verdict = TweetVerdictType.opinion.value.data then raw_verdict
      else TweetVerdictType.questionable.value.data
    let analysis :=
      match jsonGet parsed "analysis".data with
      | none => []
      | some .null => []
      | some v => pyStrip (pyStr v)
    let identified_claims :=
      match (jsonGet parsed "identified_claims".data).getD (.arr []) with
      | .arr l => (l.filter pyTruthy).map (fun c => pyStrip (pyStr c))
      | _ => []
    let red_flags :=
      match (jsonGet parsed "red_flags".data).getD (.arr []) with
      | .arr l => (l.filter pyTruthy).map (fun f => pyStrip (pyStr f))
      | _ => []
    .ok ⟨verdict, confFromParsed parsed, analysis, identified_claims, red_flags⟩
  | some _ => .error .attributeError
  | none =>
    -- `except` branch: `analysis = raw_response`; the final
    -- `if not json_parsed and not analysis` fallback then keeps it.
    let analysis := rawL
    .ok ⟨TweetVerdictType.questionable.value.data, (1 : ℚ)/2,
      if analysis.isEmpty then rawL else analysis, [], []⟩

/-! ## Data model of the scoring layer (`src/models.py`, `src/scoring.py`) -/

/-- `LLMResponse` from `src/models.py`.  The `winning_party` field is used by
`scoring.py` and set by the provider clients; its declaration is missing from
the snapshot of `models.py` (modelled from the spec as an optional dispute
decision).  `model` and `raw_response` are carried but never read by the
aggregation logic. -/
structure LLMResponse where
  provider : String
  model : String
  decision : DecisionType
  winning_party : Option DisputeDecisionType
  confidence : ℚ
  reasoning : String
  raw_response : String
  error : Option String
deriving DecidableEq, Repr

/-- `OracleResult` from `src/models.py` (the fields produced by
`WeightedScorer`; the externally-owned signature fields are omitted; the
timestamp is an opaque tick). -/
structure OracleResult where
  query : String
  final_decision : DisputeDecisionType
  final_confidence : ℚ
  explanation : String
  llm_responses : List LLMResponse
  total_weight : ℚ
  timestamp : Nat
deriving DecidableEq, Repr

/-- `TweetLLMResponse` from `src/models.py`. -/
structure TweetLLMResponse where
  provider : String
  model : String
  verdict : TweetVerdictType
  confidence : ℚ
  analysis : String
  identified_claims : List String
  red_flags : List String
  raw_response : String
  error : Option String
deriving DecidableEq, Repr

/-- `TweetAnalysisResult` from `src/models.py` (signature fields omitted;
`tweet` is just the URL). -/
structure TweetAnalysisResult where
  tweet_url : String
  final_verdict : TweetVerdictType
  final_confidence : ℚ
  analysis_summary : String
  llm_responses : List TweetLLMResponse
  total_weight : ℚ
  timestamp : Nat
deriving DecidableEq, Repr

/-- The provider-weight map `WeightedScorer.weights` (a Python dict with
unique keys). -/
def Weights : Type := List (String × ℚ)

/-- `self.weights.get(provider, 1.0)`. -/
def weightsGet (w : Weights) (provider : String) : ℚ :=
  match List.find? (fun kv => decide (kv.1 = provider)) w with
  | some kv => kv.2
  | none => 1

/-- Python `str.upper()` on a scoring-layer string. -/
def strUpperS (s : String) : String := String.mk (pyUpper s.data)

/-- Python fixed-point formatting `f"{q:.nd}"` (sign, then the magnitude
rounded to `nd` decimal places). -/
def fmtFixed (nd : Nat) (q : ℚ) : String :=
  let sgn := if q < 0 then "-" else ""
  let aq := pyAbs q * (10 : ℚ) ^ nd + 1/2
  let scaled : ℤ := Int.fdiv aq.num aq.den
  let n := scaled.toNat
  let ip := n / 10 ^ nd
  let fp := n % 10 ^ nd
  let fpStr := toString fp
  let pad := String.mk (List.replicate (nd - fpStr.length) '0')
  if nd = 0 then sgn ++ toString ip else sgn ++ toString ip ++ "." ++ pad ++ fpStr

/-- The valid (error-free) responses: `[r for r in responses if r.error is None]`. -/
def validResponses (responses : List LLMResponse) : List LLMResponse :=
  responses.filter (fun r => r.error.isNone)

/-- The weighted per-class score buckets of
`WeightedScorer._aggregate_dispute_responses`. -/
structure DisputeScores where
  a : ℚ
  b : ℚ
  u : ℚ
deriving DecidableEq, Repr

/-- The dispute class a response is counted under: `winning_party` when
present, otherwise the yes→A / no→B / uncertain→uncertain fallback mapping. -/
def disputeVoteOf (r : LLMResponse) : DisputeDecisionType :=
  match r.winning_party with
  | some wp => wp
  | none =>
    match r.decision with
    | .yes => .A
    | .no => .B
    | .uncertain => .uncertain

/-- The score-accumulation loop of `_aggregate_dispute_responses`:
`decision_scores[class] += weight * confidence` over the valid responses. -/
def disputeDecisionScores (w : Weights) (valid : List LLMResponse) : DisputeScores :=
  valid.foldl
    (fun acc r =>
      let wt := weightsGet w r.provider
      match disputeVoteOf r with
      | .A => { acc with a := acc.a + wt * r.confidence }
      | .B => { acc with b := acc.b + wt * r.confidence }
      | .uncertain => { acc with u := acc.u + wt * r.confidence })
    ⟨0, 0, 0⟩

/-- `total_weight`: sum of the weights of the valid responses. -/
def totalWeightOf (w : Weights) (valid : List LLMResponse) : ℚ :=
  valid.foldl (fun s r => s + weightsGet w r.provider) 0

/-- `max(normalized_scores.items(), key=...)` over the dispute buckets:
Python's `max` keeps the first maximal item in dict insertion order
(A, B, uncertain). -/
def disputeWinner (na nb nu : ℚ) : DisputeDecisionType × ℚ :=
  let w1 : DisputeDecisionType × ℚ := (.A, na)
  let w2 : DisputeDecisionType × ℚ := if nb > w1.2 then (.B, nb) else w1
  if nu > w2.2 then (.uncertain, nu) else w2

/-- One per-provider line of `_generate_dispute_explanation`. -/
def disputeProviderLine (w : Weights) (r : LLMResponse) : String :=
  let decision_str :=
    match r.winning_party with
    | some wp => strUpperS wp.value
    | none => strUpperS r.decision.value
  "- **" ++ strUpperS r.provider ++ "** (weight: " ++ fmtFixed 1 (weightsGet w r.provider)
    ++ "): " ++ decision_str ++ " (confidence: " ++ fmtFixed 2 r.confidence ++ ")"

/-- The `explanation_parts` list built by `_generate_dispute_explanation`
(before `"\n".join`), for a non-empty response list. -/
def disputeExplanationParts (w : Weights) (responses : List LLMResponse)
    (final_decision : DisputeDecisionType) (final_confidence total_weight : ℚ) : List String :=
  let cA := responses.countP (fun r => disputeVoteOf r = DisputeDecisionType.A)
  let cB := responses.countP (fun r => disputeVoteOf r = DisputeDecisionType.B)
  let cU := responses.countP (fun r => disputeVoteOf r = DisputeDecisionType.uncertain)
  let votingLines :=
    ([(DisputeDecisionType.A, cA), (DisputeDecisionType.B, cB),
      (DisputeDecisionType.uncertain, cU)]).filterMap
      (fun dc =>
        if dc.2 > 0 then
          some ("- " ++ strUpperS dc.1.value ++ ": " ++ toString dc.2 ++ " provider(s)")
        else none)
  ["**Final Decision: " ++ strUpperS final_decision.value ++ "** (confidence: "
      ++ fmtFixed 2 final_confidence ++ ")",
    "",
    "**Voting Summary:**"]
  ++ votingLines
  ++ ["",
    "**Total Weight Used:** " ++ fmtFixed 2 total_weight,
    "",
    "**Individual Provider Assessments:**"]
  ++ responses.map (disputeProviderLine w)

/-- Python `"sep".join(parts)` at the scoring-string level. -/
def pyJoinS (sep : String) : List String → String
  | [] => ""
  | [x] => x
  | x :: y :: t => x ++ sep ++ pyJoinS sep (y :: t)

/-- `_generate_dispute_explanation` (receives only the valid responses). -/
def generateDisputeExplanation (w : Weights) (responses : List LLMResponse)
    (final_decision : DisputeDecisionType) (final_confidence total_weight : ℚ) : String :=
  if responses.isEmpty then
    "All LLM providers failed to respond. Unable to make a decision."
  else
    pyJoinS "\n"
      (disputeExplanationParts w responses final_decision final_confidence total_weight)

/-- The `final_decision`/`final_confidence` selection of
`_aggregate_dispute_responses`: the all-failed case, the non-positive-winner
case, the two-class tie check with the fixed `0.01` epsilon, and the plain
winner. -/
def disputeFinal (w : Weights) (valid : List LLMResponse) : DisputeDecisionType × ℚ :=
  let scores := disputeDecisionScores w valid
  let total_weight := totalWeightOf w valid
  if total_weight = 0 then
    (DisputeDecisionType.uncertain, (0 : ℚ))
  else
    let na := scores.a / total_weight
    let nb := scores.b / total_weight
    let nu := scores.u / total_weight
    let win := disputeWinner na nb nu
    if win.2 ≤ 0 then (DisputeDecisionType.uncertain, (0 : ℚ))
    else if pyAbs (na - nb) < 1/100 ∧ na > 0 then (DisputeDecisionType.uncertain, win.2)
    else win

/-- `WeightedScorer._aggregate_dispute_responses`. -/
def aggregateDisputeResponses (w : Weights) (query : String)
    (responses : List LLMResponse) (t : Nat) : OracleResult :=
  { query := query
    final_decision := (disputeFinal w (validResponses responses)).1
    final_confidence := (disputeFinal w (validResponses responses)).2
    explanation :=
      generateDisputeExplanation w (validResponses responses)
        (disputeFinal w (validResponses responses)).1
        (disputeFinal w (validResponses responses)).2
        (totalWeightOf w (validResponses responses))
    llm_responses := responses
    total_weight := totalWeightOf w (validResponses responses)
    timestamp := t }

/-- The weighted per-class score buckets of
`WeightedScorer._aggregate_legacy_responses`. -/
structure LegacyScores where
  yes : ℚ
  no : ℚ
  u : ℚ
deriving DecidableEq, Repr

/-- The score-accumulation loop of `_aggregate_legacy_responses`. -/
def legacyDecisionScores (w : Weights) (valid : List LLMResponse) : LegacyScores :=
  valid.foldl
    (fun acc r =>
      let wt := weightsGet w r.provider
      match r.decision with
      | .yes => { acc with yes := acc.yes + wt * r.confidence }
      | .no => { acc with no := acc.no + wt * r.confidence }
      | .uncertain => { acc with u := acc.u + wt * r.confidence })
    ⟨0, 0, 0⟩

/-- `max` over the legacy buckets in dict insertion order (yes, no, uncertain),
first maximal item wins. -/
def legacyWinner (ny nn nu : ℚ) : DecisionType × ℚ :=
  let w1 : DecisionType × ℚ := (.yes, ny)
  let w2 : DecisionType × ℚ := if nn > w1.2 then (.no, nn) else w1
  if nu > w2.2 then (.uncertain, nu) else w2

/-- One per-provider line of `_generate_explanation` (legacy format). -/
def legacyProviderLine (w : Weights) (r : LLMResponse) : String :=
  "- **" ++ strUpperS r.provider ++ "** (weight: " ++ fmtFixed 1 (weightsGet w r.provider)
    ++ "): " ++ strUpperS r.decision.value ++ " (confidence: " ++ fmtFixed 2 r.confidence ++ ")"

/-- The `explanation_parts` list built by `_generate_explanation` (legacy). -/
def legacyExplanationParts (w : Weights) (responses : List LLMResponse)
    (final_decision : DecisionType) (final_confidence total_weight : ℚ) : List String :=
  let cY := responses.countP (fun r => r.decision = DecisionType.yes)
  let cN := responses.countP (fun r => r.decision = DecisionType.no)
  let cU := responses.countP (fun r => r.decision = DecisionType.uncertain)
  let votingLines :=
    ([(DecisionType.yes, cY), (DecisionType.no, cN), (DecisionType.uncertain, cU)]).filterMap
      (fun dc =>
        if dc.2 > 0 then
          some ("- " ++ strUpperS dc.1.value ++ ": " ++ toString dc.2 ++ " provider(s)")
        else none)
  ["**Final Decision: " ++ strUpperS final_decision.value ++ "** (confidence: "
      ++ fmtFixed 2 final_confidence ++ ")",
    "",
    "**Voting Summary:**"]
  ++ votingLines
  ++ ["",
    "**Total Weight Used:** " ++ fmtFixed 2 total_weight,
    "",
    "**Individual Provider Assessments:**"]
  ++ responses.map (legacyProviderLine w)

/-- `_generate_explanation` (legacy; receives only the valid responses). -/
def generateLegacyExplanation (w : Weights) (responses : List LLMResponse)
    (final_decision : DecisionType) (final_confidence total_weight : ℚ) : String :=
  if responses.isEmpty then
    "All LLM providers failed to respond. Unable to make a decision."
  else
    pyJoinS "\n"
      (legacyExplanationParts w responses final_decision final_confidence total_weight)

/-- The `final_decision_legacy`/`final_confidence` selection of
`_aggregate_legacy_responses`. -/
def legacyFinal (w : Weights) (valid : List LLMResponse) : DecisionType × ℚ :=
  let scores := legacyDecisionScores w valid
  let total_weight := totalWeightOf w valid
  if total_weight = 0 then
    (DecisionType.uncertain, (0 : ℚ))
  else
    let ny := scores.yes / total_weight
    let nn := scores.no / total_weight
    let nu := scores.u / total_weight
    let win := legacyWinner ny nn nu
    if win.2 ≤ 0 then (DecisionType.uncertain, (0 : ℚ))
    else if pyAbs (ny - nn) < 1/100 ∧ ny > 0 then (DecisionType.uncertain, win.2)
    else win

/-- The legacy-to-dispute decision mapping applied to the final legacy
decision before building the `OracleResult`. -/
def legacyToDispute : DecisionType → DisputeDecisionType
  | .yes => .A
  | .no => .B
  | .uncertain => .uncertain

/-- `WeightedScorer._aggregate_legacy_responses`. -/
def aggregateLegacyResponses (w : Weights) (query : String)
    (responses : List LLMResponse) (t : Nat) : OracleResult :=
  { query := query
    final_decision := legacyToDispute (legacyFinal w (validResponses responses)).1
    final_confidence := (legacyFinal w (validResponses responses)).2
    explanation :=
      generateLegacyExplanation w (validResponses responses)
        (legacyFinal w (validResponses responses)).1
        (legacyFinal w (validResponses responses)).2
        (totalWeightOf w (validResponses responses))
    llm_responses := responses
    total_weight := totalWeightOf w (validResponses responses)
    timestamp := t }

/-- `WeightedScorer.aggregate_responses`: dispatch on whether any valid
response carries a `winning_party`. -/
def aggregateResponses (w : Weights) (query : String)
    (responses : List LLMResponse) (t : Nat) : OracleResult :=
  if responses.any (fun r => r.error.isNone && r.winning_party.isSome) then
    aggregateDisputeResponses w query responses t
  else
    aggregateLegacyResponses w query responses t

/-! ## Tweet-credibility aggregation (`WeightedScorer.aggregate_tweet_responses`) -/

/-- The valid tweet responses. -/
def validTweetResponses (responses : List TweetLLMResponse) : List TweetLLMResponse :=
  responses.filter (fun r => r.error.isNone)

/-- The weighted per-verdict score buckets of `aggregate_tweet_responses`. -/
structure TweetScores where
  credible : ℚ
  questionable : ℚ
  misleading : ℚ
  opinion : ℚ
deriving DecidableEq, Repr

/-- The score-accumulation loop of `aggregate_tweet_responses`. -/
def tweetVerdictScores (w : Weights) (valid : List TweetLLMResponse) : TweetScores :=
  valid.foldl
    (fun acc r =>
      let wt := weightsGet w r.provider
      match r.verdict with
      | .credible => { acc with credible := acc.credible + wt * r.confidence }
      | .questionable => { acc with questionable := acc.questionable + wt * r.confidence }
      | .misleading => { acc with misleading := acc.misleading + wt * r.confidence }
      | .opinion => { acc with opinion := acc.opinion + wt * r.confidence })
    ⟨0, 0, 0, 0⟩

/-- `total_weight` over the valid tweet responses. -/
def tweetTotalWeight (w : Weights) (valid : List TweetLLMResponse) : ℚ :=
  valid.foldl (fun s r => s + weightsGet w r.provider) 0

/-- `max` over the verdict buckets in dict insertion order
(credible, questionable, misleading, opinion); first maximal item wins. -/
def tweetWinner (nc nq nm no' : ℚ) : TweetVerdictType × ℚ :=
  let w1 : TweetVerdictType × ℚ := (.credible, nc)
  let w2 : TweetVerdictType × ℚ := if nq > w1.2 then (.questionable, nq) else w1
  let w3 : TweetVerdictType × ℚ := if nm > w2.2 then (.misleading, nm) else w2
  if no' > w3.2 then (.opinion, no') else w3

/-- One per-provider line of `_generate_tweet_summary`. -/
def tweetProviderLine (w : Weights) (r : TweetLLMResponse) : String :=
  "- **" ++ strUpperS r.provider ++ "** (weight: " ++ fmtFixed 1 (weightsGet w r.provider)
    ++ "): " ++ strUpperS r.verdict.value ++ " (confidence: " ++ fmtFixed 2 r.confidence ++ ")"

/-- An admissible iteration order for a Python `set` built by successive
`update` calls: it enumerates each distinct element exactly once, in an order
CPython leaves unspecified (string hashes are randomized per process). -/
def isSetOrder (ord : List String → List String) : Prop :=
  ∀ xs : List String, (ord xs).Perm xs.dedup

/-- The `summary_parts` list built by `_generate_tweet_summary` (before the
join), for a non-empty response list.  `ord` supplies the iteration order of
the `all_claims` and `all_red_flags` sets. -/
def tweetSummaryParts (w : Weights) (responses : List TweetLLMResponse)
    (final_verdict : TweetVerdictType) (final_confidence total_weight : ℚ)
    (ord : List String → List String) : List String :=
  let cC := responses.countP (fun r => r.verdict = TweetVerdictType.credible)
  let cQ := responses.countP (fun r => r.verdict = TweetVerdictType.questionable)
  let cM := responses.countP (fun r => r.verdict = TweetVerdictType.misleading)
  let cO := responses.countP (fun r => r.verdict = TweetVerdictType.opinion)
  let votingLines :=
    ([(TweetVerdictType.credible, cC), (TweetVerdictType.questionable, cQ),
      (TweetVerdictType.misleading, cM), (TweetVerdictType.opinion, cO)]).filterMap
      (fun vc =>
        if vc.2 > 0 then
          some ("- " ++ strUpperS vc.1.value ++ ": " ++ toString vc.2 ++ " provider(s)")
        else none)
  let all_claims := ord (responses.flatMap (fun r => r.identified_claims))
  let all_red_flags := ord (responses.flatMap (fun r => r.red_flags))
  ["**Final Verdict: " ++ strUpperS final_verdict.value ++ "** (confidence: "
      ++ fmtFixed 2 final_confidence ++ ")",
    "",
    "**Analysis Summary:**"]
  ++ votingLines
  ++ ["",
    "**Total Weight Used:** " ++ fmtFixed 2 total_weight]
  ++ (if all_claims.isEmpty then []
      else ["", "**Identified Claims:**"] ++ (all_claims.take 5).map (fun c => "- " ++ c))
  ++ (if all_red_flags.isEmpty then []
      else ["", "**Red Flags:**"] ++ (all_red_flags.take 5).map (fun f => "- " ++ f))
  ++ ["",
    "**Individual Provider Analyses:**"]
  ++ responses.map (tweetProviderLine w)

/-- `_generate_tweet_summary` (receives only the valid responses). -/
def generateTweetSummary (w : Weights) (responses : List TweetLLMResponse)
    (final_verdict : TweetVerdictType) (final_confidence total_weight : ℚ)
    (ord : List String → List String) : String :=
  if responses.isEmpty then
    "All LLM providers failed to respond. Unable to analyze tweet credibility."
  else
    pyJoinS "\n"
      (tweetSummaryParts w responses final_verdict final_confidence total_weight ord)

/-- The `final_verdict`/`final_confidence` selection of
`aggregate_tweet_responses` (no tie rule in the four-class mode). -/
def tweetFinal (w : Weights) (valid : List TweetLLMResponse) : TweetVerdictType × ℚ :=
  let scores := tweetVerdictScores w valid
  let total_weight := tweetTotalWeight w valid
  if total_weight = 0 then
    (TweetVerdictType.questionable, (0 : ℚ))
  else
    let nc := scores.credible / total_weight
    let nq := scores.questionable / total_weight
    let nm := scores.misleading / total_weight
    let no' := scores.opinion / total_weight
    let win := tweetWinner nc nq nm no'
    if win.2 ≤ 0 then (TweetVerdictType.questionable, (0 : ℚ))
    else win

/-- `WeightedScorer.aggregate_tweet_responses`.  `ord` is the (unspecified)
set-iteration order used while building the summary; `t` the current tick. -/
def aggregateTweetResponses (w : Weights) (tweet_url : String)
    (responses : List TweetLLMResponse) (ord : List String → List String)
    (t : Nat) : TweetAnalysisResult :=
  { tweet_url := tweet_url
    final_verdict := (tweetFinal w (validTweetResponses responses)).1
    final_confidence := (tweetFinal w (validTweetResponses responses)).2
    analysis_summary :=
      generateTweetSummary w (validTweetResponses responses)
        (tweetFinal w (validTweetResponses responses)).1
        (tweetFinal w (validTweetResponses responses)).2
        (tweetTotalWeight w (validTweetResponses responses)) ord
    llm_responses := responses
    total_weight := tweetTotalWeight w (validTweetResponses responses)
    timestamp := t }

/-! ## Fan-out failure threshold (`Oracle.resolve_dispute`, `src/oracle.py`) -/

/-- `Oracle.resolve_dispute`, given the per-provider results delivered by
`_safe_query` (which never raises): count the error-tagged results, raise
`TooManyAgentsFailedError` when strictly more than two failed, otherwise
aggregate.  The `Except` error carries the exception message. -/
def resolveDispute (w : Weights) (query : String)
    (responses : List LLMResponse) (t : Nat) : Except String OracleResult :=
  let failed_count := (responses.filter (fun r => r.error.isSome)).length
  if failed_count > 2 then
    let failed_providers := (responses.filter (fun r => r.error.isSome)).map (fun r => r.provider)
    .error ("More than 2 API agents failed (" ++ toString failed_count ++ " failed: "
      ++ pyJoinS ", " failed_providers ++ "). Job will be retried.")
  else
    .ok (aggregateResponses w query responses t)

/-! ## Claims -/

deriving instance DecidableEq for Except

/-- Claim C8: the spec says the normalization routines never raise and every
failure degrades to a default verdict.  The code contradicts this intent: on
any raw text that is valid JSON but not an object (here the text `5`),
`json.loads` returns a non-dict and the following `parsed.get` raises
`AttributeError`, which the `except (json.JSONDecodeError, TypeError)` clause
does not catch — in both `_parse_response` and `_parse_tweet_response`. -/
theorem normalizer_raises_on_non_object_json :
    parseResponseE "5" = .error .attributeError ∧
      parseTweetResponseE "5" = .error .attributeError := by
  exact ⟨rfl, rfl⟩

set_option maxRecDepth 4000 in
/-- Claim C7: a prose preamble followed by an opening ```json fence and the
object with decision yes / confidence 0.99 / reasoning X, with no closing
fence, normalizes to decision `yes`, confidence `0.99` and rationale exactly
`X` (which contains `X`): fenced content with no closer runs to end-of-string
and the fence may sit anywhere in the text.  Second conjunct: with several
fenced blocks, only the first is used. -/
theorem unclosed_fence_scenario :
    parseResponseE
        "Let me analyze this:\n```json\n\x7b\"decision\": \"yes\", \"confidence\": 0.99, \"reasoning\": \"X\"\x7d"
      = .ok ⟨"yes".data, 99/100, "X".data, none⟩ ∧
    parseResponseE
        "First:\n```json\n\x7b\"decision\": \"yes\", \"confidence\": 0.75, \"reasoning\": \"First fence\"\x7d\n```\nSecond:\n```json\n\x7b\"decision\": \"no\", \"confidence\": 0.25, \"reasoning\": \"Second fence\"\x7d\n```"
      = .ok ⟨"yes".data, 3/4, "First fence".data, none⟩ := by
  constructor
  · decide
  · decide

/-- Claim C2: the fan-out raises the distinct too-many-agents-failed
condition exactly when strictly more than two per-provider results carry an
error; with at most two erroring providers (in particular exactly two) the
round proceeds to normal scoring and returns the aggregated `OracleResult`. -/
theorem failure_threshold (w : Weights) (q : String) (rs : List LLMResponse) (t : Nat) :
    ((rs.filter (fun r => r.error.isSome)).length > 2 →
      ∃ msg, resolveDispute w q rs t = .error msg) ∧
    ((rs.filter (fun r => r.error.isSome)).length ≤ 2 →
      resolveDispute w q rs t = .ok (aggregateResponses w q rs t)) := by
  constructor
  · intro h
    simp only [resolveDispute]
    rw [if_pos h]
    exact ⟨_, rfl⟩
  · intro h
    simp only [resolveDispute]
    rw [if_neg (by omega : ¬ (rs.filter (fun r => r.error.isSome)).length > 2)]

/-- A valid two-provider dispute round used to instantiate several claims. -/
def exRespA : LLMResponse :=
  { provider := "claude", model := "m1", decision := .yes,
    winning_party := some .A, confidence := mkRat 4 5, reasoning := "ra",
    raw_response := "xa", error := none }

/-- A second valid response voting the opposite dispute class. -/
def exRespB : LLMResponse :=
  { provider := "openai", model := "m2", decision := .yes,
    winning_party := some .B, confidence := mkRat 4 5, reasoning := "rb",
    raw_response := "xb", error := none }

/-- A failed (error-tagged) response. -/
def exRespFail : LLMResponse :=
  { provider := "gemini", model := "m3", decision := .uncertain,
    winning_party := none, confidence := 0, reasoning := "boom",
    raw_response := "", error := some "API timeout" }

/-- Witness for C2: five configured providers; with three erroring the
fan-out reports too many agents failed, with exactly two it scores
normally. -/
theorem failure_threshold_witness :
    (∃ msg,
      resolveDispute [] "q" [exRespFail, exRespFail, exRespFail, exRespA, exRespB] 0
        = .error msg) ∧
    resolveDispute [] "q" [exRespFail, exRespFail, exRespA, exRespB, exRespA] 0
      = .ok (aggregateResponses [] "q" [exRespFail, exRespFail, exRespA, exRespB, exRespA] 0) :=
  ⟨(failure_threshold [] "q" [exRespFail, exRespFail, exRespFail, exRespA, exRespB] 0).1
      (by decide),
    (failure_threshold [] "q" [exRespFail, exRespFail, exRespA, exRespB, exRespA] 0).2
      (by decide)⟩

/-- Claim C4: when every response carries an error, the accumulated total
weight is 0 and aggregation returns the mode's neutral class (uncertain for
dispute/legacy, questionable for credibility) with confidence 0.0, and the
explanation states that all providers failed. -/
theorem all_failed_round (w : Weights) (q url : String) (rs : List LLMResponse)
    (rst : List TweetLLMResponse) (ord : List String → List String) (t : Nat)
    (h : ∀ r ∈ rs, r.error ≠ none) (h2 : ∀ r ∈ rst, r.error ≠ none) :
    (aggregateResponses w q rs t).total_weight = 0 ∧
    (aggregateResponses w q rs t).final_decision = .uncertain ∧
    (aggregateResponses w q rs t).final_confidence = 0 ∧
    (aggregateResponses w q rs t).explanation =
      "All LLM providers failed to respond. Unable to make a decision." ∧
    (aggregateTweetResponses w url rst ord t).total_weight = 0 ∧
    (aggregateTweetResponses w url rst ord t).final_verdict = .questionable ∧
    (aggregateTweetResponses w url rst ord t).final_confidence = 0 ∧
    (aggregateTweetResponses w url rst ord t).analysis_summary =
      "All LLM providers failed to respond. Unable to analyze tweet credibility." := by
  have hval : validResponses rs = [] := by
    rw [validResponses, List.filter_eq_nil_iff]
    intro r hr
    cases he : r.error with
    | none => exact absurd he (h r hr)
    | some e => simp [he]
  have hvalT : validTweetResponses rst = [] := by
    rw [validTweetResponses, List.filter_eq_nil_iff]
    intro r hr
    cases he : r.error with
    | none => exact absurd he (h2 r hr)
    | some e => simp [he]
  have hdisp : rs.any (fun r => r.error.isNone && r.winning_party.isSome) = false := by
    rw [List.any_eq_false]
    intro r hr
    cases he : r.error with
    | none => exact absurd he (h r hr)
    | some e => simp [he]
  have hagg : aggregateResponses w q rs t = aggregateLegacyResponses w q rs t := by
    simp [aggregateResponses, hdisp]
  refine ⟨?_, ?_, ?_, ?_, ?_, ?_, ?_, ?_⟩
  · rw [hagg]
    show totalWeightOf w (validResponses rs) = 0
    rw [hval]; rfl
  · rw [hagg]
    show legacyToDispute (legacyFinal w (validResponses rs)).1 = .uncertain
    rw [hval]; rfl
  · rw [hagg]
    show (legacyFinal w (validResponses rs)).2 = 0
    rw [hval]; rfl
  · rw [hagg]
    show generateLegacyExplanation w (validResponses rs) _ _ _ = _
    rw [hval]
    rfl
  · show tweetTotalWeight w (validTweetResponses rst) = 0
    rw [hvalT]; rfl
  · show (tweetFinal w (validTweetResponses rst)).1 = .questionable
    rw [hvalT]; rfl
  · show (tweetFinal w (validTweetResponses rst)).2 = 0
    rw [hvalT]; rfl
  · show generateTweetSummary w (validTweetResponses rst) _ _ _ _ = _
    rw [hvalT]
    rfl

/-- Witness for C4: three failed providers yield uncertain at confidence 0
with the all-failed explanation (and the tweet mode analog). -/
theorem all_failed_round_witness :
    (∀ r ∈ [exRespFail, exRespFail, exRespFail], r.error ≠ none) ∧
    (aggregateResponses [] "q" [exRespFail, exRespFail, exRespFail] 0).final_decision
      = .uncertain ∧
    (aggregateResponses [] "q" [exRespFail, exRespFail, exRespFail] 0).final_confidence = 0 ∧
    (aggregateResponses [] "q" [exRespFail, exRespFail, exRespFail] 0).explanation
      = "All LLM providers failed to respond. Unable to make a decision." := by
  have h := all_failed_round [] "q" "u" [exRespFail, exRespFail, exRespFail] [] id 0
    (by decide) (by simp)
  exact ⟨by decide, h.2.1, h.2.2.1, h.2.2.2.1⟩

/-- Counterexample to claim C6 as stated: the raw text is a JSON object with
an absent reasoning field, yet the rationale is the non-empty dispute-mode
summary string, not the empty string: the winning-party branch folds its
secondary fields into the rationale. -/
theorem rationale_fallback_counterexample :
    parseResponseE "\x7b\"winning_party\": \"A\"\x7d"
      = .ok ⟨"yes".data, (1 : ℚ)/2, "Winning party: A".data, some .A⟩ ∧
    "Winning party: A".data ≠ ([] : List Char) := by
  constructor
  · decide
  · decide

/-- Claim C6 (amended): when the raw text parses as a JSON object *without a
winning_party field*, a null, absent, or whitespace-only reasoning field
normalizes to the empty string; whenever the text parses as a JSON object,
the whole result depends only on the parsed object (never on the raw text);
the raw text becomes the rationale exactly when JSON parsing fails and the
keyword scan yields no reasoning. -/
theorem rationale_fallback_discipline :
    (∀ (raw : String) (o : List (List Char × Json)) (pa : ParsedAnswer),
      jsonLoads (cleanJsonText raw.data) = some (.obj o) →
      parseResponseE raw = .ok pa →
      (jsonGet o "winning_party".data = none ∨ jsonGet o "winning_party".data = some .null) →
      (jsonGet o "reasoning".data = none ∨ jsonGet o "reasoning".data = some .null ∨
        (∃ s, jsonGet o "reasoning".data = some (.str s) ∧ pyStrip s = [])) →
      pa.reasoning = []) ∧
    (∀ (raw raw' : String) (o : List (List Char × Json)),
      jsonLoads (cleanJsonText raw.data) = some (.obj o) →
      jsonLoads (cleanJsonText raw'.data) = some (.obj o) →
      parseResponseE raw = parseResponseE raw') ∧
    (∀ (raw : String) (d : List Char) (c : ℚ) (r : List Char),
      jsonLoads (cleanJsonText raw.data) = none →
      keywordScan DecisionType.uncertain.value.data ((1 : ℚ)/2) []
          (pySplitList ['\n'] raw.data) = .ok (d, c, r) →
      parseResponseE raw = .ok ⟨d, c, if r.isEmpty then raw.data else r, none⟩) := by
  refine ⟨?_, ?_, ?_⟩
  · intro raw o pa hjson hpa hwp hre
    simp only [parseResponseE, hjson] at hpa
    rcases hwp with hwp | hwp <;> simp only [hwp] at hpa <;>
      rcases hre with hre | hre | ⟨s, hre, hs⟩ <;> simp only [hre] at hpa <;>
      injection hpa with h <;> rw [← h] <;> simp [pyStr, hs]
  · intro raw raw' o h1 h2
    rw [parseResponseE, parseResponseE, h1, h2]
  · intro raw d c r hjson hscan
    rw [parseResponseE, hjson, hscan]

/-- Witness for C6 (amended): a JSON object with no winning_party and no
reasoning field yields the empty rationale. -/
theorem rationale_fallback_discipline_witness :
    parseResponseE "\x7b\"decision\": \"yes\"\x7d"
      = .ok ⟨"yes".data, (1 : ℚ)/2, [], none⟩ ∧
    (⟨"yes".data, (1 : ℚ)/2, [], none⟩ : ParsedAnswer).reasoning = [] :=
  ⟨by decide,
    rationale_fallback_discipline.1 "\x7b\"decision\": \"yes\"\x7d"
      [("decision".data, Json.str "yes".data)] ⟨"yes".data, (1 : ℚ)/2, [], none⟩
      rfl (by decide) (Or.inl rfl) (Or.inl rfl)⟩

/-- Counterexample to claim C10 as stated: a whitespace-only entry in
identified_claims is truthy before stripping, so it is kept and stripped to
the empty string: the output list contains a blank entry. -/
theorem credibility_blank_entry_kept :
    parseTweetResponseE
        "\x7b\"verdict\": \"credible\", \"identified_claims\": [\" \"], \"red_flags\": []\x7d"
      = .ok ⟨"credible".data, (1 : ℚ)/2, [], [[]], []⟩ ∧
    ([] : List Char) ∈ [([] : List Char)] := by
  constructor
  · decide
  · decide

/-- Claim C10 (amended): for a JSON object payload, identified_claims and
red_flags are string lists obtained from a JSON list value by dropping the
falsy entries and `str().strip()`-ing the kept ones (so a whitespace-only
entry survives as an empty string rather than being dropped); a non-list
value for either field yields the empty list. -/
theorem credibility_list_extraction :
    ∀ (raw : String) (o : List (List Char × Json)) (tp : TweetParsed),
      jsonLoads (cleanJsonText raw.data) = some (.obj o) →
      parseTweetResponseE raw = .ok tp →
      ((∀ l, (jsonGet o "identified_claims".data).getD (.arr []) = .arr l →
          tp.identified_claims.length = (l.filter pyTruthy).length ∧
          ∀ s ∈ tp.identified_claims, ∃ c ∈ l, pyTruthy c = true ∧ s = pyStrip (pyStr c)) ∧
        ((∀ l, ¬ (jsonGet o "identified_claims".data).getD (.arr []) = .arr l) →
          tp.identified_claims = [])) ∧
      ((∀ l, (jsonGet o "red_flags".data).getD (.arr []) = .arr l →
          tp.red_flags.length = (l.filter pyTruthy).length ∧
          ∀ s ∈ tp.red_flags, ∃ c ∈ l, pyTruthy c = true ∧ s = pyStrip (pyStr c)) ∧
        ((∀ l, ¬ (jsonGet o "red_flags".data).getD (.arr []) = .arr l) →
          tp.red_flags = [])) := by
  intro raw o tp hjson htp
  simp only [parseTweetResponseE, hjson] at htp
  constructor
  · constructor
    · intro l hl
      rw [hl] at htp
      injection htp with h
      rw [← h]
      refine ⟨by simp, ?_⟩
      intro s hs
      simp only [List.mem_map] at hs
      obtain ⟨c, hc, hsc⟩ := hs
      rw [List.mem_filter] at hc
      exact ⟨c, hc.1, hc.2, hsc.symm⟩
    · intro hnl
      cases hv : (jsonGet o "identified_claims".data).getD (.arr []) with
      | arr l => exact absurd hv (hnl l)
      | null => rw [hv] at htp; injection htp with h; rw [← h]
      | bool b => rw [hv] at htp; injection htp with h; rw [← h]
      | num q => rw [hv] at htp; injection htp with h; rw [← h]
      | str s => rw [hv] at htp; injection htp with h; rw [← h]
      | obj kvs => rw [hv] at htp; injection htp with h; rw [← h]
  · constructor
    · intro l hl
      rw [hl] at htp
      injection htp with h
      rw [← h]
      refine ⟨by simp, ?_⟩
      intro s hs
      simp only [List.mem_map] at hs
      obtain ⟨c, hc, hsc⟩ := hs
      rw [List.mem_filter] at hc
      exact ⟨c, hc.1, hc.2, hsc.symm⟩
    · intro hnl
      cases hv : (jsonGet o "red_flags".data).getD (.arr []) with
      | arr l => exact absurd hv (hnl l)
      | null => rw [hv] at htp; injection htp with h; rw [← h]
      | bool b => rw [hv] at htp; injection htp with h; rw [← h]
      | num q => rw [hv] at htp; injection htp with h; rw [← h]
      | str s => rw [hv] at htp; injection htp with h; rw [← h]
      | obj kvs => rw [hv] at htp; injection htp with h; rw [← h]

/-- Witness for C10 (amended): claims `["a", ""]` keep exactly the truthy
entry `a`; a non-list red_flags value yields the empty list. -/
theorem credibility_list_extraction_witness :
    parseTweetResponseE
        "\x7b\"verdict\": \"opinion\", \"identified_claims\": [\"a\", \"\"], \"red_flags\": \"nope\"\x7d"
      = .ok ⟨"opinion".data, (1 : ℚ)/2, [], ["a".data], []⟩ ∧
    (["a".data] : List (List Char)).length
      = ([Json.str "a".data, Json.str []].filter pyTruthy).length ∧
    (⟨"opinion".data, (1 : ℚ)/2, [], ["a".data], []⟩ : TweetParsed).red_flags = [] := by
  have h := credibility_list_extraction
    "\x7b\"verdict\": \"opinion\", \"identified_claims\": [\"a\", \"\"], \"red_flags\": \"nope\"\x7d"
    [("verdict".data, Json.str "opinion".data),
      ("identified_claims".data, Json.arr [Json.str "a".data, Json.str []]),
      ("red_flags".data, Json.str "nope".data)]
    ⟨"opinion".data, (1 : ℚ)/2, [], ["a".data], []⟩
    rfl (by decide)
  exact ⟨by decide, (h.1.1 [Json.str "a".data, Json.str []] rfl).1,
    h.2.2 (fun l hl => Json.noConfusion hl)⟩

/-- The clamp helper lands in the unit interval. -/
theorem clampConf_range (q : ℚ) : 0 ≤ clampConf q ∧ clampConf q ≤ 1 := by
  by_cases h1 : q < 1
  · by_cases h2 : (0 : ℚ) < q
    · simp only [clampConf, if_pos h1, if_pos h2]
      exact ⟨le_of_lt h2, le_of_lt h1⟩
    · simp only [clampConf, if_pos h1, if_neg h2]
      norm_num
  · have h2 : (0 : ℚ) < 1 := by norm_num
    simp only [clampConf, if_neg h1, if_pos h2]
    norm_num

/-- The confidence extracted from a parsed JSON object is in `[0, 1]`. -/
theorem confFromParsed_range (o : List (List Char × Json)) :
    0 ≤ confFromParsed o ∧ confFromParsed o ≤ 1 := by
  rcases h : pyFloat ((jsonGet o "confidence".data).getD (.num ((1 : ℚ)/2))) with _ | q
  · simp only [confFromParsed, h]
    norm_num
  · simp only [confFromParsed, h]
    exact clampConf_range q

/-- The legacy keyword scan keeps the confidence inside `[0, 1]`. -/
theorem keywordScan_conf_range :
    ∀ (lines : List (List Char)) (d : List Char) (c : ℚ) (r : List Char)
      (d' : List Char) (c' : ℚ) (r' : List Char),
      0 ≤ c → c ≤ 1 →
      keywordScan d c r lines = .ok (d', c', r') → 0 ≤ c' ∧ c' ≤ 1 := by
  intro lines
  induction lines with
  | nil =>
    intro d c r d' c' r' h0 h1 h
    simp only [keywordScan, Except.ok.injEq, Prod.mk.injEq] at h
    obtain ⟨-, h2, -⟩ := h
    rw [← h2]
    exact ⟨h0, h1⟩
  | cons line rest ih =>
    intro d c r d' c' r' h0 h1 h
    simp only [keywordScan] at h
    split at h
    · -- DECISION
      rcases hps : pySplitOnce [':'] line [] with _ | ⟨a, _ | ⟨b, _ | ⟨e, t⟩⟩⟩ <;>
        simp only [hps] at h
      · exact Except.noConfusion h
      · exact Except.noConfusion h
      · exact ih _ _ _ _ _ _ h0 h1 h
      · exact Except.noConfusion h
    · split at h
      · -- CONFIDENCE
        rcases hps : pySplitOnce [':'] line [] with _ | ⟨a, _ | ⟨b, _ | ⟨e, t⟩⟩⟩ <;>
          simp only [hps] at h
        · exact ih _ _ _ _ _ _ (by norm_num) (by norm_num) h
        · exact ih _ _ _ _ _ _ (by norm_num) (by norm_num) h
        · rcases hpf : parseFloatChars (pyStrip b) with _ | q <;> simp only [hpf] at h
          · exact ih _ _ _ _ _ _ (by norm_num) (by norm_num) h
          · exact ih _ _ _ _ _ _ (clampConf_range q).1 (clampConf_range q).2 h
        · exact ih _ _ _ _ _ _ (by norm_num) (by norm_num) h
      · split at h
        · -- REASONING
          rcases hps : pySplitOnce [':'] line [] with _ | ⟨a, _ | ⟨b, _ | ⟨e, t⟩⟩⟩ <;>
            simp only [hps] at h
          · exact Except.noConfusion h
          · exact Except.noConfusion h
          · split at h <;>
              · simp only [Except.ok.injEq, Prod.mk.injEq] at h
                obtain ⟨-, h2, -⟩ := h
                rw [← h2]
                exact ⟨h0, h1⟩
          · exact Except.noConfusion h
        · exact ih _ _ _ _ _ _ h0 h1 h

/-- Claim C5: for every raw text on which the normalizer returns, the
produced confidence lies in `[0, 1]`; for a JSON-object payload whose
confidence field is missing, null, or not convertible to a float, the
confidence is exactly `0.5`. -/
theorem confidence_clamping_total :
    ∀ (raw : String) (pa : ParsedAnswer),
      parseResponseE raw = .ok pa →
      (0 ≤ pa.confidence ∧ pa.confidence ≤ 1) ∧
      (∀ o, jsonLoads (cleanJsonText raw.data) = some (.obj o) →
        (jsonGet o "confidence".data = none ∨ jsonGet o "confidence".data = some .null ∨
          (∃ v, jsonGet o "confidence".data = some v ∧ pyFloat v = none)) →
        pa.confidence = (1 : ℚ)/2) := by
  intro raw pa hpa
  rcases hj : jsonLoads (cleanJsonText raw.data) with _ | v
  · -- JSON parse failure: keyword-scan fallback
    rw [parseResponseE, hj] at hpa
    rcases hks : keywordScan DecisionType.uncertain.value.data ((1 : ℚ)/2) []
        (pySplitList ['\n'] raw.data) with e | ⟨d, c, r⟩ <;> rw [hks] at hpa
    · exact Except.noConfusion hpa
    · refine ⟨?_, ?_⟩
      · injection hpa with h
        rw [← h]
        exact keywordScan_conf_range _ _ _ _ _ _ _ (by norm_num) (by norm_num) hks
      · intro o ho
        exact Option.noConfusion ho
  · cases v with
    | obj o =>
      have hconf : pa.confidence = confFromParsed o := by
        rw [parseResponseE, hj] at hpa
        rcases hw : (match jsonGet o "winning_party".data with
            | some .null => none
            | other => other : Option Json) with _ | wpv <;>
          simp only [hw] at hpa <;> injection hpa with h <;> rw [← h]
      refine ⟨?_, ?_⟩
      · rw [hconf]
        exact confFromParsed_range o
      · intro o' ho hcase
        injection ho with ho
        injection ho with ho
        subst ho
        rw [hconf]
        unfold confFromParsed
        rcases hcase with hc | hc | ⟨v, hc, hv⟩ <;> rw [hc]
        · show clampConf ((1 : ℚ)/2) = (1 : ℚ)/2
          decide
        · rfl
        · simp only [Option.getD_some, hv]
    | null =>
      rw [parseResponseE, hj] at hpa
      exact Except.noConfusion hpa
    | bool b =>
      rw [parseResponseE, hj] at hpa
      exact Except.noConfusion hpa
    | num q =>
      rw [parseResponseE, hj] at hpa
      exact Except.noConfusion hpa
    | str s =>
      rw [parseResponseE, hj] at hpa
      exact Except.noConfusion hpa
    | arr xs =>
      rw [parseResponseE, hj] at hpa
      exact Except.noConfusion hpa

/-- Witness for C5: a string-valued confidence field that cannot be parsed
as a float yields exactly 0.5. -/
theorem confidence_clamping_total_witness :
    parseResponseE "\x7b\"decision\": \"yes\", \"confidence\": \"high\"\x7d"
      = .ok ⟨"yes".data, (1 : ℚ)/2, [], none⟩ ∧
    (⟨"yes".data, (1 : ℚ)/2, [], none⟩ : ParsedAnswer).confidence = (1 : ℚ)/2 := by
  have h := confidence_clamping_total "\x7b\"decision\": \"yes\", \"confidence\": \"high\"\x7d"
    ⟨"yes".data, (1 : ℚ)/2, [], none⟩ (by decide)
  exact ⟨by decide,
    h.2 [("decision".data, Json.str "yes".data), ("confidence".data, Json.str "high".data)]
      rfl (Or.inr (Or.inr ⟨Json.str "high".data, rfl, rfl⟩))⟩

/-- The Python `abs` model agrees with the mathematical absolute value. -/
theorem pyAbs_eq_abs (q : ℚ) : pyAbs q = |q| := by
  by_cases h : q < 0
  · simp [pyAbs, h, abs_of_neg h]
  · simp [pyAbs, h, abs_of_nonneg (le_of_not_lt h)]

/-- The winning score dominates the A-bucket score. -/
theorem le_disputeWinner_a (na nb nu : ℚ) : na ≤ (disputeWinner na nb nu).2 := by
  by_cases h1 : nb > na
  · by_cases h2 : nu > nb
    · simp [disputeWinner, h1, h2]
      linarith
    · simp [disputeWinner, h1, h2]
      linarith
  · by_cases h2 : nu > na
    · simp [disputeWinner, h1, h2]
      linarith
    · simp [disputeWinner, h1, h2]

/-- The winning score dominates the yes-bucket score. -/
theorem le_legacyWinner_y (ny nn nu : ℚ) : ny ≤ (legacyWinner ny nn nu).2 := by
  by_cases h1 : nn > ny
  · by_cases h2 : nu > nn
    · simp [legacyWinner, h1, h2]
      linarith
    · simp [legacyWinner, h1, h2]
      linarith
  · by_cases h2 : nu > ny
    · simp [legacyWinner, h1, h2]
      linarith
    · simp [legacyWinner, h1, h2]

/-- Claim C1: two-class tie-break.  For dispute aggregation with positive
total valid weight: a non-positive winning normalized score yields
uncertain/0.0; normalized A/B scores that are both positive and differ by
less than 0.01 yield uncertain with the winning normalized score as the
confidence.  The same holds for legacy yes/no aggregation, and two
equal-weight providers voting opposite dispute classes at equal confidence
yield uncertain with confidence equal to the tied normalized score
(confidence/2). -/
theorem two_class_tie_break :
    (∀ (w : Weights) (q : String) (rs : List LLMResponse) (t : Nat),
      0 < totalWeightOf w (validResponses rs) →
      ((disputeWinner
            ((disputeDecisionScores w (validResponses rs)).a / totalWeightOf w (validResponses rs))
            ((disputeDecisionScores w (validResponses rs)).b / totalWeightOf w (validResponses rs))
            ((disputeDecisionScores w (validResponses rs)).u / totalWeightOf w (validResponses rs))).2
          ≤ 0 →
        (aggregateDisputeResponses w q rs t).final_decision = .uncertain ∧
        (aggregateDisputeResponses w q rs t).final_confidence = 0) ∧
      (|(disputeDecisionScores w (validResponses rs)).a / totalWeightOf w (validResponses rs)
          - (disputeDecisionScores w (validResponses rs)).b / totalWeightOf w (validResponses rs)|
          < 1/100 →
        0 < (disputeDecisionScores w (validResponses rs)).a / totalWeightOf w (validResponses rs) →
        0 < (disputeDecisionScores w (validResponses rs)).b / totalWeightOf w (validResponses rs) →
        (aggregateDisputeResponses w q rs t).final_decision = .uncertain ∧
        (aggregateDisputeResponses w q rs t).final_confidence =
          (disputeWinner
            ((disputeDecisionScores w (validResponses rs)).a / totalWeightOf w (validResponses rs))
            ((disputeDecisionScores w (validResponses rs)).b / totalWeightOf w (validResponses rs))
            ((disputeDecisionScores w (validResponses rs)).u / totalWeightOf w (validResponses rs))).2)) ∧
    (∀ (w : Weights) (q : String) (rs : List LLMResponse) (t : Nat),
      0 < totalWeightOf w (validResponses rs) →
      ((legacyWinner
            ((legacyDecisionScores w (validResponses rs)).yes / totalWeightOf w (validResponses rs))
            ((legacyDecisionScores w (validResponses rs)).no / totalWeightOf w (validResponses rs))
            ((legacyDecisionScores w (validResponses rs)).u / totalWeightOf w (validResponses rs))).2
          ≤ 0 →
        (aggregateLegacyResponses w q rs t).final_decision = .uncertain ∧
        (aggregateLegacyResponses w q rs t).final_confidence = 0) ∧
      (|(legacyDecisionScores w (validResponses rs)).yes / totalWeightOf w (validResponses rs)
          - (legacyDecisionScores w (validResponses rs)).no / totalWeightOf w (validResponses rs)|
          < 1/100 →
        0 < (legacyDecisionScores w (validResponses rs)).yes / totalWeightOf w (validResponses rs) →
        0 < (legacyDecisionScores w (validResponses rs)).no / totalWeightOf w (validResponses rs) →
        (aggregateLegacyResponses w q rs t).final_decision = .uncertain ∧
        (aggregateLegacyResponses w q rs t).final_confidence =
          (legacyWinner
            ((legacyDecisionScores w (validResponses rs)).yes / totalWeightOf w (validResponses rs))
            ((legacyDecisionScores w (validResponses rs)).no / totalWeightOf w (validResponses rs))
            ((legacyDecisionScores w (validResponses rs)).u / totalWeightOf w (validResponses rs))).2)) ∧
    (∀ (w : Weights) (q : String) (r1 r2 : LLMResponse) (t : Nat),
      r1.error = none → r2.error = none →
      r1.winning_party = some .A → r2.winning_party = some .B →
      r2.confidence = r1.confidence →
      weightsGet w r2.provider = weightsGet w r1.provider →
      0 < weightsGet w r1.provider →
      0 ≤ r1.confidence →
      (aggregateResponses w q [r1, r2] t).final_decision = .uncertain ∧
      (aggregateResponses w q [r1, r2] t).final_confidence = r1.confidence / 2) := by
  refine ⟨?_, ?_, ?_⟩
  · intro w q rs t htw
    constructor
    · intro hwin
      have h2 : disputeFinal w (validResponses rs) = (.uncertain, (0 : ℚ)) := by
        simp only [disputeFinal]
        rw [if_neg htw.ne', if_pos hwin]
      constructor
      · show (disputeFinal w (validResponses rs)).1 = _
        rw [h2]
      · show (disputeFinal w (validResponses rs)).2 = _
        rw [h2]
    · intro habs ha hb
      have hnle : ¬ (disputeWinner
          ((disputeDecisionScores w (validResponses rs)).a / totalWeightOf w (validResponses rs))
          ((disputeDecisionScores w (validResponses rs)).b / totalWeightOf w (validResponses rs))
          ((disputeDecisionScores w (validResponses rs)).u / totalWeightOf w (validResponses rs))).2
          ≤ 0 := by
        have := le_disputeWinner_a
          ((disputeDecisionScores w (validResponses rs)).a / totalWeightOf w (validResponses rs))
          ((disputeDecisionScores w (validResponses rs)).b / totalWeightOf w (validResponses rs))
          ((disputeDecisionScores w (validResponses rs)).u / totalWeightOf w (validResponses rs))
        intro hcon
        linarith
      have hcond : pyAbs
          ((disputeDecisionScores w (validResponses rs)).a / totalWeightOf w (validResponses rs)
            - (disputeDecisionScores w (validResponses rs)).b / totalWeightOf w (validResponses rs))
          < 1/100 ∧
          (disputeDecisionScores w (validResponses rs)).a / totalWeightOf w (validResponses rs)
          > 0 := by
        constructor
        · rw [pyAbs_eq_abs]
          exact habs
        · exact ha
      have h2 : disputeFinal w (validResponses rs)
          = (.uncertain, (disputeWinner
            ((disputeDecisionScores w (validResponses rs)).a / totalWeightOf w (validResponses rs))
            ((disputeDecisionScores w (validResponses rs)).b / totalWeightOf w (validResponses rs))
            ((disputeDecisionScores w (validResponses rs)).u / totalWeightOf w (validResponses rs))).2) := by
        simp only [disputeFinal]
        rw [if_neg htw.ne', if_neg hnle, if_pos hcond]
      constructor
      · show (disputeFinal w (validResponses rs)).1 = _
        rw [h2]
      · show (disputeFinal w (validResponses rs)).2 = _
        rw [h2]
  · intro w q rs t htw
    constructor
    · intro hwin
      have h2 : legacyFinal w (validResponses rs) = (.uncertain, (0 : ℚ)) := by
        simp only [legacyFinal]
        rw [if_neg htw.ne', if_pos hwin]
      constructor
      · show legacyToDispute (legacyFinal w (validResponses rs)).1 = _
        rw [h2]
        rfl
      · show (legacyFinal w (validResponses rs)).2 = _
        rw [h2]
    · intro habs ha hb
      have hnle : ¬ (legacyWinner
          ((legacyDecisionScores w (validResponses rs)).yes / totalWeightOf w (validResponses rs))
          ((legacyDecisionScores w (validResponses rs)).no / totalWeightOf w (validResponses rs))
          ((legacyDecisionScores w (validResponses rs)).u / totalWeightOf w (validResponses rs))).2
          ≤ 0 := by
        have := le_legacyWinner_y
          ((legacyDecisionScores w (validResponses rs)).yes / totalWeightOf w (validResponses rs))
          ((legacyDecisionScores w (validResponses rs)).no / totalWeightOf w (validResponses rs))
          ((legacyDecisionScores w (validResponses rs)).u / totalWeightOf w (validResponses rs))
        intro hcon
        linarith
      have hcond : pyAbs
          ((legacyDecisionScores w (validResponses rs)).yes / totalWeightOf w (validResponses rs)
            - (legacyDecisionScores w (validResponses rs)).no / totalWeightOf w (validResponses rs))
          < 1/100 ∧
          (legacyDecisionScores w (validResponses rs)).yes / totalWeightOf w (validResponses rs)
          > 0 := by
        constructor
        · rw [pyAbs_eq_abs]
          exact habs
        · exact ha
      have h2 : legacyFinal w (validResponses rs)
          = (.uncertain, (legacyWinner
            ((legacyDecisionScores w (validResponses rs)).yes / totalWeightOf w (validResponses rs))
            ((legacyDecisionScores w (validResponses rs)).no / totalWeightOf w (validResponses rs))
            ((legacyDecisionScores w (validResponses rs)).u / totalWeightOf w (validResponses rs))).2) := by
        simp only [legacyFinal]
        rw [if_neg htw.ne', if_neg hnle, if_pos hcond]
      constructor
      · show legacyToDispute (legacyFinal w (validResponses rs)).1 = _
        rw [h2]
        rfl
      · show (legacyFinal w (validResponses rs)).2 = _
        rw [h2]
  · intro w q r1 r2 t herr1 herr2 hwp1 hwp2 hconf hw hpos hc0
    have hdisp : aggregateResponses w q [r1, r2] t = aggregateDisputeResponses w q [r1, r2] t := by
      simp [aggregateResponses, herr1, hwp1]
    have hval : validResponses [r1, r2] = [r1, r2] := by
      simp [validResponses, herr1, herr2]
    have hsc : disputeDecisionScores w [r1, r2]
        = ⟨0 + weightsGet w r1.provider * r1.confidence,
            0 + weightsGet w r2.provider * r2.confidence, 0⟩ := by
      simp [disputeDecisionScores, disputeVoteOf, hwp1, hwp2]
    have htw : totalWeightOf w [r1, r2]
        = 0 + weightsGet w r1.provider + weightsGet w r2.provider := by
      simp [totalWeightOf]
    have htw2 : totalWeightOf w [r1, r2] = 2 * weightsGet w r1.provider := by
      rw [htw, hw]
      ring
    have htwne : totalWeightOf w [r1, r2] ≠ 0 := by
      rw [htw2]
      positivity
    have hWne : weightsGet w r1.provider ≠ 0 := hpos.ne'
    have hna : (disputeDecisionScores w [r1, r2]).a / totalWeightOf w [r1, r2]
        = r1.confidence / 2 := by
      rw [hsc, htw2]
      show (0 + weightsGet w r1.provider * r1.confidence)
          / (2 * weightsGet w r1.provider) = r1.confidence / 2
      field_simp
      ring
    have hnb : (disputeDecisionScores w [r1, r2]).b / totalWeightOf w [r1, r2]
        = r1.confidence / 2 := by
      rw [hsc, htw2]
      show (0 + weightsGet w r2.provider * r2.confidence)
          / (2 * weightsGet w r1.provider) = r1.confidence / 2
      rw [hconf, hw]
      field_simp
      ring
    have hnu : (disputeDecisionScores w [r1, r2]).u / totalWeightOf w [r1, r2] = 0 := by
      rw [hsc]
      show (0 : ℚ) / _ = 0
      simp
    rw [hdisp]
    have hgoal : disputeFinal w (validResponses [r1, r2])
        = (DisputeDecisionType.uncertain, r1.confidence / 2) := by
      rw [hval]
      simp only [disputeFinal]
      rw [if_neg htwne, hna, hnb, hnu]
      rcases eq_or_lt_of_le hc0 with hc | hc
      · have hzero : r1.confidence / 2 = 0 := by
          rw [← hc]
          norm_num
        have hwin : (disputeWinner (r1.confidence/2) (r1.confidence/2) 0).2 ≤ 0 := by
          simp [disputeWinner, hzero]
        rw [if_pos hwin, hzero]
      · have hlt1 : ¬ (r1.confidence/2 > r1.confidence/2) := lt_irrefl _
        have hlt2 : ¬ ((0 : ℚ) > r1.confidence/2) := by linarith
        have hwin2 : disputeWinner (r1.confidence/2) (r1.confidence/2) 0
            = (DisputeDecisionType.A, r1.confidence/2) := by
          simp [disputeWinner, hlt1, hlt2]
        have hnle : ¬ (disputeWinner (r1.confidence/2) (r1.confidence/2) 0).2 ≤ 0 := by
          rw [hwin2]
          simp
          linarith
        have hcond : pyAbs (r1.confidence/2 - r1.confidence/2) < 1/100 ∧
            r1.confidence/2 > 0 := by
          constructor
          · simp [pyAbs]
          · linarith
        rw [if_neg hnle, if_pos hcond, hwin2]
    constructor
    · show (disputeFinal w (validResponses [r1, r2])).1 = _
      rw [hgoal]
    · show (disputeFinal w (validResponses [r1, r2])).2 = _
      rw [hgoal]

/-- Witness for C1: two equal-weight providers voting A and B at confidence
0.8 yield uncertain with confidence 0.4 (the tied normalized score). -/
theorem two_class_tie_break_witness :
    (aggregateResponses [] "q" [exRespA, exRespB] 0).final_decision = .uncertain ∧
    (aggregateResponses [] "q" [exRespA, exRespB] 0).final_confidence = mkRat 4 5 / 2 := by
  have h := two_class_tie_break.2.2 [] "q" exRespA exRespB 0 rfl rfl rfl rfl rfl rfl
    (by decide) (by decide)
  exact ⟨h.1, h.2⟩

/-- A prefix is contained as a substring. -/
theorem strContains_of_isPrefixOf {s sub : List Char} (h : sub.isPrefixOf s = true) :
    strContains s sub = true := by
  cases s with
  | nil =>
    cases sub with
    | nil => rfl
    | cons c t => simp [List.isPrefixOf] at h
  | cons c t =>
    simp [strContains, h]

/-- Containment survives prepending characters. -/
theorem strContains_cons {s sub : List Char} (c : Char) (h : strContains s sub = true) :
    strContains (c :: s) sub = true := by
  simp [strContains, h]

/-- Containment survives prepending a list. -/
theorem strContains_append_left (a : List Char) {s sub : List Char}
    (h : strContains s sub = true) : strContains (a ++ s) sub = true := by
  induction a with
  | nil => exact h
  | cons c t ih => exact strContains_cons c ih

/-- Every element of a joined list is contained in the join. -/
theorem strContains_pyJoinS (sep : String) (parts : List String) (x : String)
    (hx : x ∈ parts) : strContains (pyJoinS sep parts).data x.data = true := by
  induction parts with
  | nil => cases hx
  | cons y rest ih =>
    cases rest with
    | nil =>
      rcases List.mem_singleton.mp hx with rfl
      exact strContains_of_isPrefixOf (List.isPrefixOf_iff_prefix.mpr List.prefix_rfl)
    | cons z t =>
      rcases List.mem_cons.mp hx with rfl | hx2
      · show strContains (x ++ sep ++ pyJoinS sep (z :: t)).data x.data = true
        rw [String.data_append, String.data_append, List.append_assoc]
        exact strContains_of_isPrefixOf
          (List.isPrefixOf_iff_prefix.mpr (List.prefix_append _ _))
      · show strContains (y ++ sep ++ pyJoinS sep (z :: t)).data x.data = true
        rw [String.data_append, String.data_append, List.append_assoc]
        exact strContains_append_left _ (strContains_append_left _ (ih hx2))

/-- Counterexample to claim C3 as stated: with one valid (claude) and one
failed (gemini) response, the explanation has no occurrence of the failed
provider's name at all, hence no per-provider line for it — the listing
receives only the valid responses. -/
theorem explanation_omits_failed_counterexample :
    exRespFail ∈ [exRespA, exRespFail] ∧ exRespFail.error ≠ none ∧
    strContains (aggregateResponses [] "q" [exRespA, exRespFail] 0).explanation.data
      "GEMINI".data = false := by
  refine ⟨by decide, by decide, ?_⟩
  decide

/-- Claim C3 (amended): the explanation contains one per-provider line for
every *valid* (error-free) response, in both dispute and legacy formats;
failed responses are excluded from the listing (they appear only in the
result's response list), as the counterexample shows. -/
theorem explanation_lists_valid_responses :
    ∀ (w : Weights) (q : String) (rs : List LLMResponse) (t : Nat) (r : LLMResponse),
      r ∈ rs → r.error = none →
      strContains (aggregateDisputeResponses w q rs t).explanation.data
        (disputeProviderLine w r).data = true ∧
      strContains (aggregateLegacyResponses w q rs t).explanation.data
        (legacyProviderLine w r).data = true := by
  intro w q rs t r hr herr
  have hrv : r ∈ validResponses rs := by
    rw [validResponses, List.mem_filter]
    exact ⟨hr, by simp [herr]⟩
  have hne : ¬ (validResponses rs).isEmpty = true := by
    cases hv : validResponses rs with
    | nil => rw [hv] at hrv; cases hrv
    | cons a l => simp
  constructor
  · show strContains (generateDisputeExplanation w (validResponses rs) _ _ _).data _ = true
    rw [generateDisputeExplanation, if_neg hne]
    refine strContains_pyJoinS _ _ _ ?_
    have hm : disputeProviderLine w r ∈ List.map (disputeProviderLine w) (validResponses rs) :=
      List.mem_map_of_mem _ hrv
    simp only [disputeExplanationParts, List.mem_append]
    tauto
  · show strContains (generateLegacyExplanation w (validResponses rs) _ _ _).data _ = true
    rw [generateLegacyExplanation, if_neg hne]
    refine strContains_pyJoinS _ _ _ ?_
    have hm : legacyProviderLine w r ∈ List.map (legacyProviderLine w) (validResponses rs) :=
      List.mem_map_of_mem _ hrv
    simp only [legacyExplanationParts, List.mem_append]
    tauto

/-- Witness for C3 (amended): the valid claude response's line is contained
in the dispute explanation of a round that also has a failed provider. -/
theorem explanation_lists_valid_responses_witness :
    exRespA ∈ [exRespA, exRespFail] ∧ exRespA.error = none ∧
    strContains (aggregateDisputeResponses [] "q" [exRespA, exRespFail] 0).explanation.data
      (disputeProviderLine [] exRespA).data = true :=
  ⟨by decide, rfl,
    (explanation_lists_valid_responses [] "q" [exRespA, exRespFail] 0 exRespA
      (by decide) rfl).1⟩

/-- A tweet response with two identified claims (set order matters as soon
as the set has at least two elements). -/
def exTweetResp : TweetLLMResponse :=
  { provider := "grok", model := "m", verdict := .credible, confidence := mkRat 9 10,
    analysis := "a", identified_claims := ["a", "b"], red_flags := [],
    raw_response := "", error := none }

/-- One admissible set-iteration order: insertion order of first occurrences. -/
def setOrderInsertion : List String → List String := fun xs => xs.dedup

/-- Another admissible set-iteration order: the reversed one. -/
def setOrderReversed : List String → List String := fun xs => xs.dedup.reverse

/-- Counterexample to claim C9 as stated: two equally admissible iteration
orders of the claims set (CPython randomizes string hashes per process, so
the order is unspecified across invocations) produce different
analysis_summary strings for the same weights and ordered response list. -/
theorem tweet_summary_set_order_counterexample :
    isSetOrder setOrderInsertion ∧ isSetOrder setOrderReversed ∧
    (aggregateTweetResponses [] "u" [exTweetResp] setOrderInsertion 0).analysis_summary
      ≠ (aggregateTweetResponses [] "u" [exTweetResp] setOrderReversed 0).analysis_summary := by
  refine ⟨fun xs => List.Perm.refl _, fun xs => List.reverse_perm _, ?_⟩
  decide

/-- Claim C9 (amended): dispute/legacy aggregation is a pure function of
(weights, query, ordered response list) — all fields except the timestamp
are invariant across invocations; tweet aggregation's verdict, confidence
and total weight are likewise invariant across set-iteration orders (only
the summary depends on the order, as the counterexample shows); and the
two-class comparison uses the fixed 0.01 epsilon, so strictly different
normalized scores within epsilon still tie to uncertain, never an exact
equality test. -/
theorem aggregation_determinism :
    (∀ (w : Weights) (q : String) (rs : List LLMResponse) (t t' : Nat),
      (aggregateResponses w q rs t).final_decision
        = (aggregateResponses w q rs t').final_decision ∧
      (aggregateResponses w q rs t).final_confidence
        = (aggregateResponses w q rs t').final_confidence ∧
      (aggregateResponses w q rs t).explanation
        = (aggregateResponses w q rs t').explanation ∧
      (aggregateResponses w q rs t).total_weight
        = (aggregateResponses w q rs t').total_weight ∧
      (aggregateResponses w q rs t).llm_responses
        = (aggregateResponses w q rs t').llm_responses) ∧
    (∀ (w : Weights) (url : String) (rst : List TweetLLMResponse)
      (ord ord' : List String → List String) (t : Nat),
      (aggregateTweetResponses w url rst ord t).final_verdict
        = (aggregateTweetResponses w url rst ord' t).final_verdict ∧
      (aggregateTweetResponses w url rst ord t).final_confidence
        = (aggregateTweetResponses w url rst ord' t).final_confidence ∧
      (aggregateTweetResponses w url rst ord t).total_weight
        = (aggregateTweetResponses w url rst ord' t).total_weight) ∧
    (∀ (w : Weights) (q : String) (rs : List LLMResponse) (t : Nat),
      0 < totalWeightOf w (validResponses rs) →
      (disputeDecisionScores w (validResponses rs)).a / totalWeightOf w (validResponses rs)
        ≠ (disputeDecisionScores w (validResponses rs)).b / totalWeightOf w (validResponses rs) →
      pyAbs ((disputeDecisionScores w (validResponses rs)).a / totalWeightOf w (validResponses rs)
        - (disputeDecisionScores w (validResponses rs)).b / totalWeightOf w (validResponses rs))
        < 1/100 →
      0 < (disputeDecisionScores w (validResponses rs)).a / totalWeightOf w (validResponses rs) →
      0 < (disputeDecisionScores w (validResponses rs)).b / totalWeightOf w (validResponses rs) →
      (aggregateDisputeResponses w q rs t).final_decision = .uncertain) := by
  refine ⟨?_, ?_, ?_⟩
  · intro w q rs t t'
    by_cases h : rs.any (fun r => r.error.isNone && r.winning_party.isSome) <;>
      simp [aggregateResponses, aggregateDisputeResponses, aggregateLegacyResponses, h]
  · intro w url rst ord ord' t
    exact ⟨rfl, rfl, rfl⟩
  · intro w q rs t htw hne habs ha hb
    have hnle : ¬ (disputeWinner
        ((disputeDecisionScores w (validResponses rs)).a / totalWeightOf w (validResponses rs))
        ((disputeDecisionScores w (validResponses rs)).b / totalWeightOf w (validResponses rs))
        ((disputeDecisionScores w (validResponses rs)).u / totalWeightOf w (validResponses rs))).2
        ≤ 0 := by
      have := le_disputeWinner_a
        ((disputeDecisionScores w (validResponses rs)).a / totalWeightOf w (validResponses rs))
        ((disputeDecisionScores w (validResponses rs)).b / totalWeightOf w (validResponses rs))
        ((disputeDecisionScores w (validResponses rs)).u / totalWeightOf w (validResponses rs))
      intro hcon
      linarith
    have h2 : disputeFinal w (validResponses rs)
        = (.uncertain, (disputeWinner
          ((disputeDecisionScores w (validResponses rs)).a / totalWeightOf w (validResponses rs))
          ((disputeDecisionScores w (validResponses rs)).b / totalWeightOf w (validResponses rs))
          ((disputeDecisionScores w (validResponses rs)).u / totalWeightOf w (validResponses rs))).2) := by
      simp only [disputeFinal]
      rw [if_neg htw.ne', if_neg hnle, if_pos ⟨habs, ha⟩]
    show (disputeFinal w (validResponses rs)).1 = _
    rw [h2]

/-- A dissenting response whose normalized score differs from the opposing
one by 0.0005, strictly inside the tie epsilon. -/
def exRespB2 : LLMResponse :=
  { provider := "openai", model := "m2", decision := .yes,
    winning_party := some .B, confidence := mkRat 799 1000, reasoning := "rb",
    raw_response := "xb", error := none }

/-- Witness for C9 (amended): normalized scores 0.4 and 0.3995 differ but
lie within the 0.01 epsilon, so the decision is uncertain — the comparison
is epsilon-based, not exact equality. -/
theorem aggregation_determinism_witness :
    (disputeDecisionScores [] (validResponses [exRespA, exRespB2])).a
        / totalWeightOf [] (validResponses [exRespA, exRespB2])
      ≠ (disputeDecisionScores [] (validResponses [exRespA, exRespB2])).b
        / totalWeightOf [] (validResponses [exRespA, exRespB2]) ∧
    (aggregateDisputeResponses [] "q" [exRespA, exRespB2] 0).final_decision = .uncertain :=
  ⟨by decide,
    aggregation_determinism.2.2 [] "q" [exRespA, exRespB2] 0
      (by decide) (by decide) (by decide) (by decide) (by decide)⟩
